import Mathlib

/-!
Shallow embedding of the vyakarana rule framework (`decorators.py`) and the
exemplar anga rule set (`anga.py`).  The external collaborators — the
`Term`/`State`/`Upadesha` classes of `classes.py` and the sound utilities of
`sounds.py`/`gana.py` — are not part of the core source; every definition
that stands in for them is marked `Modelled from the spec:` and follows the
spec's description of the corresponding contract.
-/

/-- Modelled from the spec: a constituent part of a term, carrying its raw
upadesha form and the lakshana identifiers attached to it (the `Term` class
of `classes.py` is an external collaborator). -/
structure TermPart where
  raw : String
  lakshana : List String
deriving DecidableEq, Repr

/-- Modelled from the spec: an immutable morphological term with a string
value, a raw upadesha form, a clean (marker-free) value, category tags
(samjna), it-markers, lakshana identifiers, constituent parts, and an
operation-rejection record holding numeric rule identities. -/
structure Term where
  value : String
  raw : String
  clean : String
  samjna : List String
  it : List String
  lakshana : List String
  parts : List TermPart
  ops : List Nat
deriving DecidableEq, Repr

/-- Modelled from the spec: a term's rejection record is a set; adding an
already-present rule identity leaves the term unchanged. -/
def Term.add_op (t : Term) (fid : Nat) : Term :=
  if fid ∈ t.ops then t else { t with ops := fid :: t.ops }

/-- Modelled from the spec: an upadesha (a raw citation form together with
the clean value left after stripping its it-markers). -/
structure Upadesha where
  raw : String
  val : String
deriving DecidableEq, Repr

/-- Modelled from the spec: anubandha vowels are written with a following
tilde in the raw form and are stripped from the clean value. -/
def stripAnubandha : List Char → List Char
  | [] => []
  | _ :: '~' :: rest => stripAnubandha rest
  | c :: rest => c :: stripAnubandha rest

/-- Modelled from the spec: consonants that act as final it-markers on an
upadesha. -/
def itFinal : List Char := ['k', 'N', 'Y', 'R', 'w', 'q', 'm', 'S']

/-- Modelled from the spec: the clean value of a raw upadesha. -/
def uClean (raw : String) : String :=
  let base := stripAnubandha raw.toList
  match base.getLast? with
  | some c => if c ∈ itFinal then String.mk base.dropLast else String.mk base
  | none => ""

/-- Modelled from the spec: the `Upadesha` constructor `U` of `classes.py`. -/
def U (raw : String) : Upadesha := ⟨raw, uClean raw⟩

/-- Modelled from the spec: the generic substitution entry point of the
external `Term` class as exercised by the embedded rules (augmentation): the
upadesha's clean value is inserted at the end of the term's value and the raw
form is recorded as a new final part. -/
def Term.tasya (t : Term) (u : Upadesha) : Term :=
  { t with value := t.value ++ u.val, parts := t.parts ++ [⟨u.raw, []⟩] }

/-- Modelled from the spec: the vowel (ac) test of the external sound
classification collaborator, over SLP1 transliteration. -/
def isAc (c : Char) : Bool :=
  c ∈ ['a', 'A', 'i', 'I', 'u', 'U', 'f', 'F', 'x', 'X', 'e', 'E', 'o', 'O']

/-- Modelled from the spec: savarna (homogeneity) classes of vowels. -/
def savarnaIdx (c : Char) : Nat :=
  if c = 'a' ∨ c = 'A' then 0
  else if c = 'i' ∨ c = 'I' then 1
  else if c = 'u' ∨ c = 'U' then 2
  else if c = 'f' ∨ c = 'F' ∨ c = 'x' ∨ c = 'X' then 3
  else if c = 'e' then 4
  else if c = 'E' then 5
  else if c = 'o' then 6
  else if c = 'O' then 7
  else 8

/-- Modelled from the spec: two sounds are asavarna when they belong to
different homogeneity classes. -/
def asavarna (a b : Char) : Bool := savarnaIdx a != savarnaIdx b

/-- Modelled from the spec: expansion of the sound-class names (`Sounds`)
used by the embedded rules. -/
def soundClass : String → List Char
  | "a" => ['a', 'A']
  | "i" => ['i', 'I']
  | "i u" => ['i', 'I', 'u', 'U']
  | "h" => ['h']
  | "c j" => ['c', 'j']
  | _ => []

/-- Modelled from the spec: the sound substituted by `al_tasya` for each
substitute name used by the embedded rules. -/
def alSub : String → Char → Char
  | "et", _ => 'e'
  | "ku", c => if c = 'c' then 'k' else if c = 'j' then 'g' else if c = 'h' then 'G' else c
  | "yaR", c => if c = 'i' ∨ c = 'I' then 'y' else c
  | _, c => c

/-- Modelled from the spec: class-wise sound replacement (`al_tasya`) on a
term's value. -/
def Term.al_tasya (t : Term) (cls sub : String) : Term :=
  { t with value :=
      String.mk (t.value.toList.map fun c => if c ∈ soundClass cls then alSub sub c else c) }

/-- Modelled from the spec: the last sound of a term's value (`antya()`). -/
def Term.antya? (t : Term) : Option Char := t.value.toList.getLast?

/-- Modelled from the spec: the first sound of a term's value (`adi()`). -/
def Term.adi? (t : Term) : Option Char := t.value.toList.head?

/-- Modelled from the spec: the first sound of a term's value, with a dummy
sound standing in for the empty string. -/
def Term.adiD (t : Term) : Char := t.value.toList.headD '!'

/-- Modelled from the spec: the penultimate sound of a term's value
(`upadha()`). -/
def Term.upadha? (t : Term) : Option Char := t.value.toList.dropLast.getLast?

/-- Modelled from the spec: deletion of a term's last sound (`antya('')`). -/
def Term.antyaDel (t : Term) : Term := { t with value := String.mk t.value.toList.dropLast }

/-- Modelled from the spec: replacement of a term's last sound. -/
def Term.antyaRep (t : Term) (c : Char) : Term :=
  { t with value := String.mk (t.value.toList.dropLast ++ [c]) }

/-- Modelled from the spec: deletion of a term's penultimate sound
(`upadha('')`). -/
def Term.upadhaDel (t : Term) : Term :=
  { t with value :=
      String.mk (t.value.toList.dropLast.dropLast ++ t.value.toList.getLast?.toList) }

/-- Modelled from the spec: lopa — segment deletion producing an empty
value. -/
def Term.lopa (t : Term) : Term := { t with value := "" }

/-- Modelled from the spec: the samyoga (consonant-cluster) test — two
adjacent non-vowel sounds. -/
def hasSamyoga : List Char → Bool
  | a :: b :: rest => (!isAc a && !isAc b) || hasSamyoga (b :: rest)
  | _ => false

/-- Modelled from the spec: an ordered, immutable sequence of terms plus the
set of named operations already applied along this derivation path. -/
structure State where
  terms : List Term
  ops : List String
deriving DecidableEq, Repr

/-- Modelled from the spec: `ops` is a set; `add_op` returns a new State
whose set gains the name. -/
def State.add_op (s : State) (name : String) : State :=
  if name ∈ s.ops then s else { s with ops := name :: s.ops }

/-- Modelled from the spec: scan for the first term whose tags contain the
given tag, together with its index. -/
def findFrom (tag : String) : Nat → List Term → Option (Nat × Term)
  | _, [] => none
  | i, t :: ts => if tag ∈ t.samjna then some (i, t) else findFrom tag (i + 1) ts

/-- Modelled from the spec: `State.find(tag)` — the first (index, Term) pair
whose tags contain `tag`, or an absent value. -/
def State.find (s : State) (tag : String) : Option (Nat × Term) := findFrom tag 0 s.terms

/-- Modelled from the spec: single-slot replacement (`swap`). -/
def State.swap (s : State) (i : Nat) (t : Term) : State :=
  { s with terms := s.terms.set i t }

/-- From `decorators.py` `require`: the wrapped rule runs the body only when
`name` is already among the State's ops; otherwise it yields nothing. -/
def require (name : String) (fn : State → List State) (s : State) : List State :=
  if name ∈ s.ops then fn s else []

/-- From `decorators.py` `once`: the wrapped generator.  A rule body is
modelled as a function from the State and the auxiliary positional arguments
to the list of yielded States paired with a flag recording whether a
TypeError was raised after those yields; the empty argument list models the
one-argument fallback call `fn(state)`.  The Bool in the result is the
TypeError escaping the wrapped generator itself (from the fallback call). -/
def once (name : String) (fn : State → List Nat → List State × Bool)
    (s : State) (a : List Nat) : List State × Bool :=
  if name ∈ s.ops then ([], false)
  else
    let s1 := s.add_op name
    let r := fn s1 a
    if r.2 then
      let r2 := fn s1 []
      (r.1 ++ r2.1, r2.2)
    else r

/-- A rule body that accepts the State alone and never raises a TypeError. -/
def pureBody (fn : State → List State) : State → List Nat → List State × Bool :=
  fun s _ => (fn s, false)

/-- `once` as used by the anga rules: a one-argument, non-raising body,
invoked with no auxiliary arguments. -/
def onceRule (name : String) (fn : State → List State) (s : State) : List State :=
  (once name (pureBody fn) s []).1

/-- From `decorators.py` `always_true`. -/
def always_true (_t : Term) : Bool := true

/-- A context argument of the windowed framework: `none` models passing
`None` for the predicate. -/
def ctxOr (f : Option (Term → Bool)) : Term → Bool := f.getD always_true

/-- From `decorators.py` `tasya` (lines 104-110): the window predicate
`matches` built from the three context predicates, a missing predicate being
trivially true. -/
def tasyaMatches (left_ctx cur_ctx right_ctx : Option (Term → Bool)) (l c r : Term) : Bool :=
  ctxOr left_ctx l && ctxOr cur_ctx c && ctxOr right_ctx r

/-- A substitute value returned by a windowed rule body: either a plain value
(applied through the focus term's substitution entry point) or a callable
(applied to the focus term with the right context). -/
inductive SubstVal where
  | upa : Upadesha → SubstVal
  | call : (Term → Term → Term) → SubstVal

/-- Result of a windowed rule body: `None`, an `Option`-wrapped substitute,
or a bare substitute. -/
inductive TasyaResult where
  | noChange : TasyaResult
  | opt : SubstVal → TasyaResult
  | plain : SubstVal → TasyaResult

/-- How `tasya`'s wrapper applies a (possibly unwrapped) substitute: a
callable receives the focus term and the right context; anything else goes
through the focus term's substitution entry point. -/
def applySubst (v : SubstVal) (cur r : Term) : Term :=
  match v with
  | .upa u => cur.tasya u
  | .call f => f cur r

/-- From `decorators.py` `tasya` (lines 119-148): the wrapped windowed rule.
On an `Option`-wrapped result the declined variant (focus term marked with
the rule's identity) is yielded first; the accepted variant is yielded only
when the identity was not already in the focus term's rejection record. -/
def tasyaWrapped (function_id : Nat) (fn : Term → Term → Term → TasyaResult)
    (l cur r : Term) : List (Term × Term × Term) :=
  match fn l cur r with
  | .noChange => [(l, cur, r)]
  | .plain v => [(l, applySubst v cur r, r)]
  | .opt v =>
      (l, cur.add_op function_id, r) ::
        (if function_id ∈ cur.ops then [] else [(l, applySubst v cur r, r)])

/-- A registered windowed rule, reduced to the identity it carries. -/
structure TRule where
  function_id : Nat
deriving DecidableEq, Repr

/-- From `decorators.py` `tasya` (line 117): the identity captured when the
decorator factory is invoked is the length of the shared registry at that
moment. -/
def tasya_factory (registry : List TRule) : Nat := registry.length

/-- From `decorators.py` `tasya` (line 147): applying the decorator appends
the wrapped rule, carrying the previously captured identity, to the shared
registry. -/
def tasya_apply (registry : List TRule) (fid : Nat) : List TRule :=
  registry ++ [⟨fid⟩]

/-- Standard `@tasya` usage: each decorator is applied to its function before
the next factory call, `n` times starting from the empty registry. -/
def registerRules : Nat → List TRule
  | 0 => []
  | n + 1 =>
      let r := registerRules n
      tasya_apply r (tasya_factory r)

/-- Modelled from the spec: `gana.PHAN`, the seven roots of 6.4.125
(`gana.py` is an external collaborator). -/
def PHAN : List String := ["PaR", "rAj", "BrAj", "BrAS", "BlAS", "syam", "svan"]

/-- The three-valued status of `lit_a_to_e`: `True`, `False` or
`'optional'`. -/
inductive Status where
  | yes : Status
  | no : Status
  | opt : Status
deriving DecidableEq, Repr

/-- From `anga.py` `lit_a_to_e` (6.4.120 - 6.4.126).  A lookup the source
would crash on (missing anga or missing right context) is rendered as an
empty yield; such inputs are outside every claim considered here. -/
def lit_a_to_e (state : State) : List State :=
  match state.find "abhyasa", state.find "anga" with
  | some (i, abhyasa), some (j, anga) =>
      (match state.terms.get? (j + 1) with
       | some p =>
           if ("li~w" ∈ p.lakshana) ∧
               ¬(("k" ∈ p.it ∨ "N" ∈ p.it) ∨ p.value = "iTa") then []
           else
             -- 6.4.120 ata ekahalmadhye 'nAdezAder liTi
             let s120 : Status :=
               if (anga.upadha? = some 'a' ∧ anga.value.length = 3) ∧
                   abhyasa.adiD = anga.adiD then .yes else .no
             -- 6.4.122 - 6.4.125
             let s125 : Status :=
               if anga.clean ∈ ["tF", "Pal", "Baj", "trap"] then .yes
               else if anga.clean = "rAD" then .opt
               else if anga.clean ∈ ["jF", "Bram", "tras"] then .opt
               else if anga.clean ∈ PHAN then .opt
               else s120
             -- 6.4.126 na zasadadavAdiguNAnAm (last write wins)
             let status : Status :=
               if "li~w" ∈ p.lakshana then
                 (if anga.clean ∈ ["Sas", "dad"] ∨ anga.adiD = 'v' then .no else s125)
               else .no
             (if status = .yes ∨ status = .opt then
                [(state.swap i abhyasa.lopa).swap j (anga.al_tasya "a" "et")]
              else []) ++
             (if status = .no ∨ status = .opt then [state] else [])
       | none => [])
  | _, _ => []

/-- From `anga.py` `ac_adesha` (rule body, before the `once` guard). -/
def ac_adesha_body (state : State) : List State :=
  if "dvirvacana" ∉ state.ops then []
  else
    match state.find "anga" with
    | some (j, anga) =>
        (match state.terms.getLast? with
         | some tin =>
             -- 6.4.64 Ato lopa iTi ca
             if anga.antya? = some 'A' ∧
                 ("iw" ∈ (tin.parts.headD ⟨"", []⟩).lakshana ∨ "k" ∈ tin.it) then
               [state.swap j anga.antyaDel]
             -- 6.4.98 gamahanajanakhanaghasAM lopaH kGityanaGi
             else if anga.value ∈ ["gam", "han", "jan", "Kan", "Gas"] ∧
                 ("k" ∈ tin.it ∨ "N" ∈ tin.it) then
               [state.swap j anga.upadhaDel]
             else
               lit_a_to_e state
         | none => [])
    | none => []

/-- From `anga.py`: `ac_adesha` with its `once('ac_adesha')` guard. -/
def ac_adesha : State → List State := onceRule "ac_adesha" ac_adesha_body

/-- From `anga.py` `ku` (rule body, before the `once` guard). -/
def ku_body (state : State) : List State :=
  match state.find "abhyasa" with
  | some _ =>
      (match state.find "anga" with
       | some (j, anga) =>
           (match state.terms.get? (j + 1) with
            | some p =>
                -- 7.3.55 abhyAsAc ca / 7.3.56 her acaGi
                if anga.clean = "han" ∨ (anga.clean = "hi" ∧ "caN" ∉ p.lakshana) then
                  [state.swap j (anga.al_tasya "h" "ku")]
                else if "san" ∈ p.lakshana ∨ "li~w" ∈ p.lakshana then
                  -- 7.3.57 sanliTor jeH
                  if anga.clean = "ji" then [state.swap j (anga.al_tasya "c j" "ku")]
                  -- 7.3.58 vibhASA ceH
                  else if anga.clean = "ci" then
                    [state, state.swap j (anga.al_tasya "c j" "ku")]
                  else []
                else []
            | none => [])
       | none => [])
  | none => []

/-- From `anga.py`: `ku` with its `once('anga_ku')` guard. -/
def ku : State → List State := onceRule "anga_ku" ku_body

/-- From `anga.py` `aci` (rule body, before the guards). -/
def aci_body (state : State) : List State :=
  match state.find "anga" with
  | some (i, anga) =>
      (match state.terms.get? (i + 1) with
       | some p =>
           if anga.value = "" then []
           else
             match anga.antya?, p.adi? with
             | some f, some s =>
                 if ¬ isAc s then []
                 -- 6.4.88 bhuvo vuk luGliToH
                 else if anga.value = "BU" ∧ ("lu~N" ∈ p.lakshana ∨ "li~w" ∈ p.lakshana) then
                   (if (anga.parts.getLastD ⟨"", []⟩).raw = "vu~k" then []
                    else [state.swap i (anga.tasya (U "vu~k"))])
                 else if f ∈ soundClass "i u" then
                   -- 6.4.77 / 6.4.78
                   let new0 : Option Term :=
                     if ("dhatu" ∈ anga.samjna) ∨
                         ("abhyasa" ∈ anga.samjna ∧ asavarna f s = true) then
                       (if f ∈ soundClass "i" then some (anga.tasya (U "iya~N"))
                        else some (anga.tasya (U "uva~N")))
                     else none
                   -- 6.4.81 iNo yaN
                   let new1 : Option Term :=
                     if anga.raw = "i\\R" then some (anga.antyaRep 'y') else new0
                   -- 6.4.82 er anekAco 'saMyogapUrvasya
                   let new2 : Option Term :=
                     if f ∈ soundClass "i" ∧ ¬ hasSamyoga anga.value.toList.dropLast = true then
                       some (anga.al_tasya "i" "yaR")
                     else new1
                   match new2 with
                   | some n => [state.swap i n]
                   | none => []
                 else []
             | _, _ => []
       | none => [])
  | none => []

/-- From `anga.py`: `aci` with its `require('anga_adesha')` and
`once('anga_aci')` guards. -/
def aci : State → List State := require "anga_adesha" (onceRule "anga_aci" aci_body)

/-- A rule body used to exercise `once`'s TypeError handling: invoked with a
nonempty argument list it yields one state and then raises a TypeError;
invoked with the State alone it yields two states and returns normally. -/
def teBody : State → List Nat → List State × Bool :=
  fun s a => if a = [] then ([s, s], false) else ([s], true)

/-- A concrete anga term with value `BU`, for exercising the aci rule. -/
def angaBU : Term := ⟨"BU", "BU", "BU", ["anga", "dhatu"], [], [], [⟨"BU", []⟩], []⟩

/-- A concrete anga term with value `BU` whose last part is already the
inserted `vu~k` segment. -/
def angaBU2 : Term :=
  ⟨"BU", "BU", "BU", ["anga", "dhatu"], [], [], [⟨"BU", []⟩, ⟨"vu~k", []⟩], []⟩

/-- A concrete lu~N suffix term beginning with a vowel. -/
def sufLun : Term := ⟨"a", "a", "a", ["pratyaya"], [], ["lu~N"], [], []⟩

/-- A concrete abhyasa term. -/
def abhRa : Term := ⟨"ra", "ra", "ra", ["abhyasa"], [], [], [], []⟩

/-- A concrete anga term with clean value `rAD`. -/
def angaRadh : Term := ⟨"rAD", "rAD", "rAD", ["anga", "dhatu"], [], [], [], []⟩

/-- A concrete kit li~w suffix term. -/
def sufAtus : Term := ⟨"atus", "atus", "atus", ["pratyaya"], ["k"], ["li~w"], [], []⟩

/-- A concrete anga term with clean value `Sas`. -/
def angaSas : Term := ⟨"Sas", "Sas", "Sas", ["anga", "dhatu"], [], [], [], []⟩

/-- A concrete anga term with clean value `ci`. -/
def angaCi : Term := ⟨"ci", "ci", "ci", ["anga", "dhatu"], [], [], [], []⟩

/-- A concrete anga term with clean value `ji`. -/
def angaJi : Term := ⟨"ji", "ji", "ji", ["anga", "dhatu"], [], [], [], []⟩

/-- A concrete li~w suffix term without it-markers. -/
def sufLit : Term := ⟨"a", "a", "a", ["pratyaya"], [], ["li~w"], [], []⟩

/-! Helper lemmas shared by the rule theorems. -/

theorem onceRule_eq (name : String) (fn : State → List State) (s : State) :
    onceRule name fn s = if name ∈ s.ops then [] else fn (s.add_op name) := by
  by_cases h : name ∈ s.ops <;> simp [onceRule, once, pureBody, h]

theorem mem_add_op (s : State) (name : String) : name ∈ (s.add_op name).ops := by
  by_cases h : name ∈ s.ops <;> simp [State.add_op, h]

theorem add_op_of_not_mem (s : State) (name : String) (h : name ∉ s.ops) :
    s.add_op name = { s with ops := name :: s.ops } := by
  simp [State.add_op, h]

/-- C1: if `name` is already in the State's ops, a `once(name)`-wrapped rule
yields the empty sequence; otherwise the body runs on the State stamped with
`name` — so the body observes `name` in ops — and (for a body that does not
raise a TypeError) the wrapped call yields exactly what the body yields. -/
theorem c1_once_stamp_before_run (name : String)
    (fn : State → List Nat → List State × Bool) (s : State) (a : List Nat) :
    (name ∈ s.ops → once name fn s a = ([], false)) ∧
    (name ∉ s.ops →
      name ∈ (s.add_op name).ops ∧
      ((fn (s.add_op name) a).2 = false →
        once name fn s a = fn (s.add_op name) a)) := by
  refine ⟨fun h => by simp [once, h], fun h => ⟨mem_add_op s name, fun h2 => ?_⟩⟩
  simp [once, h, h2]

theorem c1_once_stamp_before_run_witness :
    once "g" (pureBody fun s => [s]) (State.mk [] ["g"]) [] = ([], false) ∧
    once "g" (pureBody fun s => [s]) (State.mk [] []) [] =
      pureBody (fun s => [s]) ((State.mk [] []).add_op "g") [] ∧
    "g" ∈ ((State.mk [] []).add_op "g").ops := by
  have h1 := (c1_once_stamp_before_run "g" (pureBody fun s => [s])
    (State.mk [] ["g"]) []).1 (by simp)
  have h2 := (c1_once_stamp_before_run "g" (pureBody fun s => [s])
    (State.mk [] []) []).2 (by simp)
  exact ⟨h1, h2.2 rfl, h2.1⟩

/-- C4: a `require(name)`-wrapped rule yields the empty sequence on any State
lacking `name` in its ops, and yields exactly what the body yields when
`name` is present. -/
theorem c4_require_gate (name : String) (fn : State → List State) (s : State) :
    (name ∉ s.ops → require name fn s = []) ∧
    (name ∈ s.ops → require name fn s = fn s) :=
  ⟨fun h => by simp [require, h], fun h => by simp [require, h]⟩

theorem c4_require_gate_witness :
    require "d" (fun s => [s]) (State.mk [] []) = [] ∧
    require "d" (fun s => [s]) (State.mk [] ["d"]) = [State.mk [] ["d"]] :=
  ⟨(c4_require_gate "d" (fun s => [s]) (State.mk [] [])).1 (by simp),
   (c4_require_gate "d" (fun s => [s]) (State.mk [] ["d"])).2 (by simp)⟩

/-- C5: the window predicate holds iff all three context predicates hold on
their slots, a missing (`none`) predicate being always true; in particular
the rule does not match when a left or right predicate fails on its
neighbor, even if the middle predicate holds on the focus term. -/
theorem c5_window_matches (left_ctx cur_ctx right_ctx : Option (Term → Bool))
    (l c r : Term) :
    (tasyaMatches left_ctx cur_ctx right_ctx l c r = true ↔
      ctxOr left_ctx l = true ∧ ctxOr cur_ctx c = true ∧ ctxOr right_ctx r = true) ∧
    (∀ t : Term, ctxOr none t = true) ∧
    (ctxOr left_ctx l = false → tasyaMatches left_ctx cur_ctx right_ctx l c r = false) ∧
    (ctxOr right_ctx r = false → tasyaMatches left_ctx cur_ctx right_ctx l c r = false) := by
  refine ⟨?_, fun t => rfl, fun h => ?_, fun h => ?_⟩
  · simp [tasyaMatches, Bool.and_eq_true, and_assoc]
  · simp [tasyaMatches, h]
  · simp [tasyaMatches, h]

theorem c5_window_matches_witness :
    tasyaMatches (some fun t => t.value = "x") none none
      (Term.mk "y" "" "" [] [] [] [] []) (Term.mk "c" "" "" [] [] [] [] [])
      (Term.mk "r" "" "" [] [] [] [] []) = false := by
  exact (c5_window_matches (some fun t => t.value = "x") none none
    (Term.mk "y" "" "" [] [] [] [] []) (Term.mk "c" "" "" [] [] [] [] [])
    (Term.mk "r" "" "" [] [] [] [] [])).2.2.1 (by decide)

/-- C3 counterexample: `once` does absorb a TypeError raised from inside the
body's own execution (here, after the body already yielded a state) and
re-dispatches a fresh one-argument invocation of the body, whose yields
follow the already-yielded state. -/
theorem c3_counterexample :
    teBody ((State.mk [] []).add_op "g") [1] = ([(State.mk [] []).add_op "g"], true) ∧
    once "g" teBody (State.mk [] []) [1] =
      ([(State.mk [] []).add_op "g", (State.mk [] []).add_op "g",
        (State.mk [] []).add_op "g"], false) := by
  constructor <;> rfl

/-- C3 amended: the combinator does use catching a TypeError as its dispatch
mechanism — when the body invoked with the State plus auxiliary arguments
raises a TypeError (at call time or from inside its own execution), the
states it already yielded are kept and the body is re-invoked with the State
alone, its yields being appended. -/
theorem c3_amended_typeerror_dispatch (name : String)
    (fn : State → List Nat → List State × Bool) (s : State) (a : List Nat)
    (h : name ∉ s.ops) (h2 : (fn (s.add_op name) a).2 = true) :
    once name fn s a =
      ((fn (s.add_op name) a).1 ++ (fn (s.add_op name) []).1,
        (fn (s.add_op name) []).2) := by
  simp [once, h, h2]

theorem c3_amended_typeerror_dispatch_witness :
    once "g" teBody (State.mk [] []) [1] =
      ((teBody ((State.mk [] []).add_op "g") [1]).1 ++
        (teBody ((State.mk [] []).add_op "g") []).1,
        (teBody ((State.mk [] []).add_op "g") []).2) :=
  c3_amended_typeerror_dispatch "g" teBody (State.mk [] []) [1] (by simp) (by rfl)

/-- C2: a `tasya`-wrapped rule whose body returns an `Option`-wrapped
substitute on a triple whose focus term does not carry the rule's identity
yields exactly the declined variant (focus term marked with the identity)
followed by the accepted variant (substitution applied); a second pass of
the rule over the marked-rejected triple, on which the body again returns an
`Option`-wrapped substitute, yields only the unchanged declined variant. -/
theorem c2_tasya_optional_fork (function_id : Nat)
    (fn : Term → Term → Term → TasyaResult) (l cur r : Term) (v w : SubstVal)
    (hrej : function_id ∉ cur.ops)
    (h1 : fn l cur r = .opt v)
    (h2 : fn l (cur.add_op function_id) r = .opt w) :
    tasyaWrapped function_id fn l cur r =
      [(l, cur.add_op function_id, r), (l, applySubst v cur r, r)] ∧
    tasyaWrapped function_id fn l (cur.add_op function_id) r =
      [(l, cur.add_op function_id, r)] := by
  have hmem : function_id ∈ (cur.add_op function_id).ops := by
    simp [Term.add_op, hrej]
  have hidem : (cur.add_op function_id).add_op function_id = cur.add_op function_id := by
    rw [Term.add_op, if_pos hmem]
  constructor
  · simp [tasyaWrapped, h1, hrej]
  · simp [tasyaWrapped, h2, hmem, hidem]

theorem c2_tasya_optional_fork_witness :
    tasyaWrapped 0 (fun _ _ _ => .opt (.upa (U "vu~k")))
      (Term.mk "l" "" "" [] [] [] [] []) (Term.mk "c" "" "" [] [] [] [] [])
      (Term.mk "r" "" "" [] [] [] [] []) =
      [(Term.mk "l" "" "" [] [] [] [] [],
        (Term.mk "c" "" "" [] [] [] [] []).add_op 0,
        Term.mk "r" "" "" [] [] [] [] []),
       (Term.mk "l" "" "" [] [] [] [] [],
        applySubst (.upa (U "vu~k")) (Term.mk "c" "" "" [] [] [] [] [])
          (Term.mk "r" "" "" [] [] [] [] []),
        Term.mk "r" "" "" [] [] [] [] [])] ∧
    tasyaWrapped 0 (fun _ _ _ => .opt (.upa (U "vu~k")))
      (Term.mk "l" "" "" [] [] [] [] [])
      ((Term.mk "c" "" "" [] [] [] [] []).add_op 0)
      (Term.mk "r" "" "" [] [] [] [] []) =
      [(Term.mk "l" "" "" [] [] [] [] [],
        (Term.mk "c" "" "" [] [] [] [] []).add_op 0,
        Term.mk "r" "" "" [] [] [] [] [])] :=
  c2_tasya_optional_fork 0 (fun _ _ _ => .opt (.upa (U "vu~k")))
    (Term.mk "l" "" "" [] [] [] [] []) (Term.mk "c" "" "" [] [] [] [] [])
    (Term.mk "r" "" "" [] [] [] [] []) (.upa (U "vu~k")) (.upa (U "vu~k"))
    (by simp) rfl rfl

/-- C10: under standard `@tasya` usage (each decorator applied before the
next factory call), the identity captured by each factory invocation equals
the rule's final index in the shared registry, and all identities are
pairwise distinct. -/
theorem c10_registry_identity (n : Nat) :
    (registerRules n).map TRule.function_id = List.range n ∧
    ((registerRules n).map TRule.function_id).Nodup := by
  have key : ∀ m, (registerRules m).map TRule.function_id = List.range m := by
    intro m
    induction m with
    | zero => rfl
    | succ k ih =>
        have hlen : (registerRules k).length = k := by
          have h := congrArg List.length ih
          simpa using h
        simp [registerRules, tasya_apply, tasya_factory, ih, hlen, List.range_succ]
  exact ⟨key n, by rw [key n]; exact List.nodup_range n⟩

/-- C8: in `lit_a_to_e` the three-valued status is computed last-write-wins:
for any anga whose clean value is `Sas` or `dad` or whose first sound is
`v`, the 6.4.126 check forces the final status to inapplicable even when an
earlier condition had determined `optional` (or mandatory), so under the
liT conditions exactly one successor is yielded — the input State
unchanged — and the substitution branch is not offered. -/
theorem c8_last_write_wins (abhyasa anga p : Term) (ops : List String)
    (hab : "abhyasa" ∈ abhyasa.samjna) (hab2 : "anga" ∉ abhyasa.samjna)
    (han : "anga" ∈ anga.samjna)
    (hlit : "li~w" ∈ p.lakshana)
    (hkn : "k" ∈ p.it ∨ "N" ∈ p.it ∨ p.value = "iTa")
    (h126 : anga.clean = "Sas" ∨ anga.clean = "dad" ∨ anga.adiD = 'v') :
    lit_a_to_e (State.mk [abhyasa, anga, p] ops) = [State.mk [abhyasa, anga, p] ops] := by
  rcases hkn with hk | hk | hk <;> rcases h126 with h6 | h6 | h6 <;>
    simp [lit_a_to_e, State.find, findFrom, hab, hab2, han, hlit, hk, h6]

theorem c8_last_write_wins_witness :
    lit_a_to_e (State.mk [abhRa, angaSas, sufAtus] []) =
      [State.mk [abhRa, angaSas, sufAtus] []] :=
  c8_last_write_wins abhRa angaSas sufAtus [] (by decide) (by decide) (by decide)
    (by decide) (Or.inl (by decide)) (Or.inl (by decide))

/-- C7: on a State [abhyasa, anga `rAD`, suffix] with `dvirvacana` attempted
and `ac_adesha` not yet attempted, where the suffix has `li~w` in its
lakshana and is kit/Nit or has value `iTa` (and the 6.4.64 and 6.4.98
branches do not trigger, as is automatic for `rAD`), `ac_adesha` yields
exactly two successors: one with the abhyasa deleted and the anga's a-class
vowel replaced by `et`, and one identical to the input apart from the
once-stamp. -/
theorem c7_radh_optional_fork (abhyasa anga p : Term) (ops : List String)
    (hab : "abhyasa" ∈ abhyasa.samjna) (hab2 : "anga" ∉ abhyasa.samjna)
    (han : "anga" ∈ anga.samjna)
    (hval : anga.value = "rAD") (hclean : anga.clean = "rAD")
    (hlit : "li~w" ∈ p.lakshana)
    (hkn : "k" ∈ p.it ∨ "N" ∈ p.it ∨ p.value = "iTa")
    (hdvir : "dvirvacana" ∈ ops) (hops : "ac_adesha" ∉ ops) :
    ac_adesha (State.mk [abhyasa, anga, p] ops) =
      [State.mk [abhyasa.lopa, anga.al_tasya "a" "et", p] ("ac_adesha" :: ops),
        State.mk [abhyasa, anga, p] ("ac_adesha" :: ops)] ∧
    abhyasa.lopa.value = "" ∧
    (anga.al_tasya "a" "et").value = "reD" := by
  have hA : ¬ anga.antya? = some 'A' := by
    simp only [Term.antya?, hval]; decide
  have hgam : anga.value ∉ ["gam", "han", "jan", "Kan", "Gas"] := by
    rw [hval]; decide
  have hSas : anga.clean ∉ ["Sas", "dad"] := by rw [hclean]; decide
  have hv : ¬ anga.adiD = 'v' := by
    simp only [Term.adiD, hval]; decide
  have h122 : anga.clean ∉ ["tF", "Pal", "Baj", "trap"] := by rw [hclean]; decide
  refine ⟨?_, rfl, ?_⟩
  · rcases hkn with hk | hk | hk <;>
      simp [ac_adesha, onceRule_eq, State.add_op, hops, ac_adesha_body,
        List.mem_cons, hdvir, State.find, findFrom, hab, hab2, han, hA, hgam,
        lit_a_to_e, hlit, hk, h122, hclean, hSas, hv, State.swap]
  · simp only [Term.al_tasya, hval]; decide

theorem c7_radh_optional_fork_witness :
    ac_adesha (State.mk [abhRa, angaRadh, sufAtus] ["dvirvacana"]) =
      [State.mk [abhRa.lopa, angaRadh.al_tasya "a" "et", sufAtus]
          ("ac_adesha" :: ["dvirvacana"]),
        State.mk [abhRa, angaRadh, sufAtus] ("ac_adesha" :: ["dvirvacana"])] ∧
    abhRa.lopa.value = "" ∧
    (angaRadh.al_tasya "a" "et").value = "reD" :=
  c7_radh_optional_fork abhRa angaRadh sufAtus ["dvirvacana"] (by decide) (by decide)
    (by decide) rfl rfl (by decide) (Or.inl (by decide)) (by decide) (by decide)

/-- C9: with an abhyasa present, `anga_ku` not yet attempted, and the term
after the anga carrying `san` or `li~w` in its lakshana, the ku rule on an
anga of clean value `ci` yields exactly two successors in order — first the
(once-stamped) input State with no term changed, then the State with the
anga's c/j sounds replaced by the ku class — while on an anga of clean value
`ji` it yields exactly the substituted State: the 7.3.58 fork is expressed
by an extra bare yield, not through the Option wrapper. -/
theorem c9_ku_optional_fork (abhyasa angaci angaji p : Term) (ops : List String)
    (hab : "abhyasa" ∈ abhyasa.samjna) (hab2 : "anga" ∉ abhyasa.samjna)
    (hci : "anga" ∈ angaci.samjna) (hcic : angaci.clean = "ci")
    (hji : "anga" ∈ angaji.samjna) (hjic : angaji.clean = "ji")
    (hsl : "san" ∈ p.lakshana ∨ "li~w" ∈ p.lakshana)
    (hops : "anga_ku" ∉ ops) :
    ku (State.mk [abhyasa, angaci, p] ops) =
      [State.mk [abhyasa, angaci, p] ("anga_ku" :: ops),
        State.mk [abhyasa, angaci.al_tasya "c j" "ku", p] ("anga_ku" :: ops)] ∧
    ku (State.mk [abhyasa, angaji, p] ops) =
      [State.mk [abhyasa, angaji.al_tasya "c j" "ku", p] ("anga_ku" :: ops)] := by
  constructor
  · rcases hsl with hs | hs <;>
      simp [ku, onceRule_eq, State.add_op, hops, ku_body, State.find, findFrom,
        hab, hab2, hci, hcic, hs, State.swap]
  · rcases hsl with hs | hs <;>
      simp [ku, onceRule_eq, State.add_op, hops, ku_body, State.find, findFrom,
        hab, hab2, hji, hjic, hs, State.swap]

theorem c9_ku_optional_fork_witness :
    ku (State.mk [abhRa, angaCi, sufLit] []) =
      [State.mk [abhRa, angaCi, sufLit] ("anga_ku" :: []),
        State.mk [abhRa, angaCi.al_tasya "c j" "ku", sufLit] ("anga_ku" :: [])] ∧
    ku (State.mk [abhRa, angaJi, sufLit] []) =
      [State.mk [abhRa, angaJi.al_tasya "c j" "ku", sufLit] ("anga_ku" :: [])] :=
  c9_ku_optional_fork abhRa angaCi angaJi sufLit [] (by decide) (by decide)
    (by decide) rfl (by decide) rfl (Or.inr (by decide)) (by decide)

/-- C6: on a State whose anga has value `BU` followed by a vowel-initial
suffix with marker `lu~N`, with `anga_adesha` attempted and `anga_aci` not,
the aci rule yields exactly one successor whose focus term gains the
inserted `vu~k` segment; if the focus term's last part is already `vu~k`
the rule yields nothing (stop condition); and re-running the rule on the
successor State yields no further change. -/
theorem c6_aci_bu_vuk (anga anga2 p : Term) (ops : List String) (c : Char)
    (han : "anga" ∈ anga.samjna) (hval : anga.value = "BU")
    (hpart : ¬ (anga.parts.getLastD ⟨"", []⟩).raw = "vu~k")
    (hlak : "lu~N" ∈ p.lakshana)
    (hadi : p.adi? = some c) (hac : isAc c = true)
    (hreq : "anga_adesha" ∈ ops) (haci : "anga_aci" ∉ ops)
    (han2 : "anga" ∈ anga2.samjna) (hval2 : anga2.value = "BU")
    (hpart2 : (anga2.parts.getLastD ⟨"", []⟩).raw = "vu~k") :
    aci (State.mk [anga, p] ops) =
      [State.mk [anga.tasya (U "vu~k"), p] ("anga_aci" :: ops)] ∧
    (anga.tasya (U "vu~k")).parts.getLast? = some ⟨"vu~k", []⟩ ∧
    (anga.tasya (U "vu~k")).value = "BUv" ∧
    aci (State.mk [anga.tasya (U "vu~k"), p] ("anga_aci" :: ops)) = [] ∧
    aci (State.mk [anga2, p] ops) = [] := by
  have hf : anga.antya? = some 'U' := by
    simp only [Term.antya?, hval]; rfl
  have hf2 : anga2.antya? = some 'U' := by
    simp only [Term.antya?, hval2]; rfl
  have hne : ¬ anga.value = "" := by rw [hval]; decide
  have hne2 : ¬ anga2.value = "" := by rw [hval2]; decide
  simp only [List.getLastD_eq_getLast?] at hpart hpart2
  refine ⟨?_, ?_, ?_, ?_, ?_⟩
  · simp [aci, require, hreq, onceRule_eq, State.add_op, haci, aci_body,
      State.find, findFrom, han, hne, hf, hadi, hac, hval, hlak, hpart,
      State.swap]
  · simp [Term.tasya, U, List.getLast?_concat]
  · simp [Term.tasya, hval]
    rfl
  · simp [aci, require, List.mem_cons, hreq, onceRule_eq]
  · simp [aci, require, hreq, onceRule_eq, State.add_op, haci, aci_body,
      State.find, findFrom, han2, hne2, hf2, hadi, hac, hval2, hlak, hpart2]

theorem c6_aci_bu_vuk_witness :
    aci (State.mk [angaBU, sufLun] ["anga_adesha"]) =
      [State.mk [angaBU.tasya (U "vu~k"), sufLun] ("anga_aci" :: ["anga_adesha"])] ∧
    (angaBU.tasya (U "vu~k")).parts.getLast? = some ⟨"vu~k", []⟩ ∧
    (angaBU.tasya (U "vu~k")).value = "BUv" ∧
    aci (State.mk [angaBU.tasya (U "vu~k"), sufLun] ("anga_aci" :: ["anga_adesha"])) = [] ∧
    aci (State.mk [angaBU2, sufLun] ["anga_adesha"]) = [] :=
  c6_aci_bu_vuk angaBU angaBU2 sufLun ["anga_adesha"] 'a'
    (by decide) rfl (by decide) (by decide) rfl rfl (by decide) (by decide)
    (by decide) rfl (by decide)
